import Mathlib

/-!
Verification of the serilogger Azure sink (src/index.ts) against its
natural-language specification.  The TypeScript class `AzureSink` is embedded
shallowly: its mutable fields become a `SinkState` record, its methods become
pure state-transition functions, asynchronous storage calls become an explicit
`Backend` oracle together with a trace of `BackendCall`s, and JavaScript
exceptions become `Except String` values.
-/

/-- Log event as consumed by the sink (from the serilogger framework): a
timestamp, a numeric severity level, and the outcome of
`messageTemplate.render(properties)`, modelled as data so that a render
failure (a thrown exception) is an `Except.error`. -/
structure LogEvent where
  timestamp : String
  level : Nat
  renderResult : Except String String

/-- Numeric value of serilogger's `LogEventLevel.debug`, the bit-flag scheme
fixed by the sink's own `mapLogLevel` (1 Fatal, 3 Error, 7 Warning, 31 Debug,
63 Verbose) and by the spec. -/
def levelDebug : Nat := 31

/-- Numeric value of serilogger's `LogEventLevel.verbose`, the most verbose
level in the ascending-verbosity numeric scheme. -/
def levelVerbose : Nat := 63

/-- `AzureSinkOptions` together with the two extra optional fields that the
internal options interface declares (`blobSizeLimitBytes`,
`retainedBlobCountLimit`).  `none` models an absent / undefined field. -/
structure AzureSinkOptions where
  connectionString : String
  storageContainerName : String
  storageFileName : String
  period : Option Nat := none
  batchPostingLimit : Option Nat := none
  flushImmediately : Option Bool := none
  restrictedToMinimumLevel : Option Nat := none
  disabled : Option Bool := none
  blobSizeLimitBytes : Option Nat := none
  retainedBlobCountLimit : Option Nat := none

/-- The merged options record (`AzureSinkOptionsInternal`): every defaulted
field is present. -/
structure InternalOptions where
  connectionString : String
  storageContainerName : String
  storageFileName : String
  period : Nat
  batchPostingLimit : Nat
  flushImmediately : Bool
  restrictedToMinimumLevel : Nat
  disabled : Bool
  blobSizeLimitBytes : Option Nat
  retainedBlobCountLimit : Option Nat

/-- The constructor's merge `{ ...defaultOptions, ...options }`: caller-supplied
fields win, absent fields fall back to `defaultOptions`
(period 10, batchPostingLimit 100, flushImmediately false,
restrictedToMinimumLevel `LogEventLevel.debug`, disabled false). -/
def mergeOptions (o : AzureSinkOptions) : InternalOptions :=
  { connectionString := o.connectionString
    storageContainerName := o.storageContainerName
    storageFileName := o.storageFileName
    period := o.period.getD 10
    batchPostingLimit := o.batchPostingLimit.getD 100
    flushImmediately := o.flushImmediately.getD false
    restrictedToMinimumLevel := o.restrictedToMinimumLevel.getD levelDebug
    disabled := o.disabled.getD false
    blobSizeLimitBytes := o.blobSizeLimitBytes
    retainedBlobCountLimit := o.retainedBlobCountLimit }

/-- JavaScript truthiness of an optional number: `undefined` and `0` are
falsy. -/
def truthyN : Option Nat → Bool
  | none => false
  | some n => n != 0

/-- A UTC instant broken into the components that `Date.toISOString` prints
(`YYYY-MM-DDTHH:mm:ss.sssZ`). -/
structure Timestamp where
  year : Nat
  month : Nat
  day : Nat
  hour : Nat
  minute : Nat
  second : Nat
  millis : Nat

/-- One decimal digit character (argument is always reduced mod 10 by the
callers). -/
def digit : Nat → Char
  | 0 => '0'
  | 1 => '1'
  | 2 => '2'
  | 3 => '3'
  | 4 => '4'
  | 5 => '5'
  | 6 => '6'
  | 7 => '7'
  | 8 => '8'
  | _ => '9'

/-- Two-digit zero-padded decimal rendering (for values below 100). -/
def pad2 (n : Nat) : List Char := [digit (n / 10), digit (n % 10)]

/-- Three-digit zero-padded decimal rendering (for values below 1000). -/
def pad3 (n : Nat) : List Char := [digit (n / 100), digit (n / 10 % 10), digit (n % 10)]

/-- Four-digit zero-padded decimal rendering (for values below 10000). -/
def pad4 (n : Nat) : List Char :=
  [digit (n / 1000), digit (n / 100 % 10), digit (n / 10 % 10), digit (n % 10)]

/-- Modelled from the spec: the characters of `Date.toISOString()` (an external
ECMAScript operation), format `YYYY-MM-DDTHH:mm:ss.sssZ`. -/
def isoChars (t : Timestamp) : List Char :=
  pad4 t.year ++ '-' :: pad2 t.month ++ '-' :: pad2 t.day ++
    'T' :: pad2 t.hour ++ ':' :: pad2 t.minute ++ ':' :: pad2 t.second ++
      '.' :: pad3 t.millis ++ ['Z']

/-- The per-character effect of `.replace(/[:.]/g, "-")`. -/
def sanitizeChar (c : Char) : Char :=
  if c = ':' ∨ c = '.' then '-' else c

/-- `.replace(/[:.]/g, "-")` over a character list. -/
def sanitizeChars (l : List Char) : List Char := l.map sanitizeChar

/-- The ISO instant with every colon and period replaced by a hyphen; this is
what `sanitizeChars (isoChars t)` evaluates to. -/
def isoSanChars (t : Timestamp) : List Char :=
  pad4 t.year ++ '-' :: pad2 t.month ++ '-' :: pad2 t.day ++
    'T' :: pad2 t.hour ++ '-' :: pad2 t.minute ++ '-' :: pad2 t.second ++
      '-' :: pad3 t.millis ++ ['Z']

/-- `storageFileName.replace(/\.txt$/, "")`: strip one trailing `.txt` if
present (modelled on the character list underlying the string). -/
def stripTxt (s : String) : String :=
  if List.isSuffixOf ([ '.', 't', 'x', 't' ]) s.data then
    String.mk (s.data.take (s.data.length - 4))
  else s

/-- `AzureSink.generateNewBlobName`: strip a trailing `.txt` from the base
file name, append a hyphen and the sanitized ISO timestamp, re-append
`.txt`. -/
def generateNewBlobName (storageFileName : String) (now : Timestamp) : String :=
  stripTxt storageFileName ++ "-" ++ String.mk (sanitizeChars (isoChars now)) ++ ".txt"

/-- `Buffer.byteLength(content)` with the default utf-8 encoding. -/
def byteLength (s : String) : Nat := s.utf8ByteSize

/-- `AzureSink.mapLogLevel`: fixed lookup from numeric level to display
label. -/
def mapLogLevel (logLevel : Nat) : String :=
  if logLevel = 1 then ("Fatal")
  else if logLevel = 3 then ("Error")
  else if logLevel = 7 then ("Warning")
  else if logLevel = 31 then ("Debug")
  else if logLevel = 63 then ("Verbose")
  else ("Information")

/-- The successfully rendered message of an event (only meaningful when
`renderResult` is `ok`). -/
def renderOk (e : LogEvent) : String :=
  match e.renderResult with
  | Except.ok m => m
  | Except.error _ => ""

/-- The formatted line of an event whose render succeeded:
`[<timestamp> <level-label>]: <rendered message>`. -/
def lineOf (e : LogEvent) : String :=
  "[" ++ e.timestamp ++ " " ++ mapLogLevel e.level ++ "]: " ++ renderOk e

/-- Formatting one event inside `flush`; a render failure propagates as the
thrown exception. -/
def formatLine (e : LogEvent) : Except String String :=
  match e.renderResult with
  | Except.error err => Except.error err
  | Except.ok m =>
      Except.ok ("[" ++ e.timestamp ++ " " ++ mapLogLevel e.level ++ "]: " ++ m)

/-- The `eventsToFlush.map(...)` loop: formats the events left to right, and
the first render failure aborts the whole batch (as the `map` callback
throwing would). -/
def formatLines : List LogEvent → Except String (List String)
  | [] => Except.ok []
  | e :: rest =>
    match formatLine e with
    | Except.error err => Except.error err
    | Except.ok line =>
      match formatLines rest with
      | Except.error err => Except.error err
      | Except.ok lines => Except.ok (line :: lines)

/-- `lines.join("\n") + "\n"` over the per-event formatting. -/
def formatBatch (events : List LogEvent) : Except String String :=
  match formatLines events with
  | Except.error e => Except.error e
  | Except.ok lines => Except.ok (String.intercalate ("\n") lines ++ "\n")

/-- The mutable fields of an `AzureSink` instance.  `timerArmed` models
whether a periodic `setInterval` timer is currently registered. -/
structure SinkState where
  options : InternalOptions
  eventBuffer : List LogEvent
  timerArmed : Bool
  currentBlobName : String

/-- The `AzureSink` constructor: merge options, pick the initial active blob
name (a fresh timestamped name when size-based rotation is enabled, otherwise
the configured file name), and arm the periodic timer unless
`flushImmediately` is set. -/
def AzureSink.new (options : AzureSinkOptions) (now : Timestamp) : SinkState :=
  let opts := mergeOptions options
  { options := opts
    eventBuffer := []
    timerArmed := if opts.flushImmediately then false else true
    currentBlobName :=
      if truthyN opts.blobSizeLimitBytes then generateNewBlobName options.storageFileName now
      else options.storageFileName }

/-- The start of `AzureSink.flush`: the guards plus the buffer swap
(`eventsToFlush = this.eventBuffer; this.eventBuffer = []`).  Returns `none`
when flush is a no-op (disabled sink or empty buffer), otherwise the detached
batch and the state with a fresh empty buffer. -/
def flushDetach (s : SinkState) : Option (List LogEvent × SinkState) :=
  if s.options.disabled then none
  else if s.eventBuffer.isEmpty then none
  else some (s.eventBuffer, { s with eventBuffer := [] })

/-- Outcome of the synchronous part of `flush` (everything before the await on
`writeToAzure`): the new state, the detached batch (if any), the text handed
to `writeToAzure` (if formatting succeeded), and the rejection of the `flush`
promise (the render failure, if any).  `writeToAzure` itself catches all of
its own failures, so a render failure is the only possible rejection. -/
structure FlushOutcome where
  state : SinkState
  detachedBatch : Option (List LogEvent)
  writeRequest : Option String
  rejection : Option String

/-- `AzureSink.flush` up to (and excluding) the backend write: guards, buffer
swap, per-event formatting, join with newlines plus a trailing newline. -/
def flushStep (s : SinkState) : FlushOutcome :=
  match flushDetach s with
  | none => ⟨s, none, none, none⟩
  | some (batch, s1) =>
    match formatBatch batch with
    | Except.error e => ⟨s1, some batch, none, some e⟩
    | Except.ok text => ⟨s1, some batch, some text, none⟩

/-- Outcome of `AzureSink.emit`: the new state, the diagnostics printed by the
`catch` block at the emit boundary, the rejection of the fire-and-forget
`flush()` promise (unhandled, since `emit` does not await it), the batch
detached by an emit-triggered flush, and the text that flush handed to the
blob writer. -/
structure EmitOutcome where
  state : SinkState
  caughtDiag : List String
  rejection : Option String
  detachedBatch : Option (List LogEvent)
  writeRequest : Option String

/-- The level filter of `emit`:
`events.filter((e) => e.level <= this.options.restrictedToMinimumLevel)`. -/
def keptEvents (s : SinkState) (es : List LogEvent) : List LogEvent :=
  es.filter (fun e => decide (e.level ≤ s.options.restrictedToMinimumLevel))

/-- The sink state after `this.eventBuffer.push(...events)` with the filtered
events. -/
def bufferedState (s : SinkState) (es : List LogEvent) : SinkState :=
  { s with eventBuffer := s.eventBuffer ++ keptEvents s es }

/-- The buffered state after `startTimer()` (which clears any previous timer
and immediately re-arms a new one). -/
def rearmedState (s : SinkState) (es : List LogEvent) : SinkState :=
  { bufferedState s es with timerArmed := true }

/-- The body of `AzureSink.emit` (inside the `try`): disabled guard, level
filter, buffer append, then either an immediate flush, a batch-threshold
flush preceded by `startTimer()`, or nothing.  The called `flush()` is an
`async` function, so its body runs with its own rejection channel: nothing it
throws surfaces in this `try` body, which is why the result type's error case
is never produced by any actual branch. -/
def emitBody (s : SinkState) (es : List LogEvent) : Except String EmitOutcome :=
  if s.options.disabled then Except.ok ⟨s, [], none, none, none⟩
  else
    if (bufferedState s es).options.flushImmediately then
      Except.ok ⟨(flushStep (bufferedState s es)).state, [],
        (flushStep (bufferedState s es)).rejection,
        (flushStep (bufferedState s es)).detachedBatch,
        (flushStep (bufferedState s es)).writeRequest⟩
    else if (bufferedState s es).options.batchPostingLimit ≤
        (bufferedState s es).eventBuffer.length then
      Except.ok ⟨(flushStep (rearmedState s es)).state, [],
        (flushStep (rearmedState s es)).rejection,
        (flushStep (rearmedState s es)).detachedBatch,
        (flushStep (rearmedState s es)).writeRequest⟩
    else Except.ok ⟨bufferedState s es, [], none, none, none⟩

/-- `AzureSink.emit`: the `try`/`catch` wrapper around `emitBody`; a thrown
exception would be reported via `console.error` and swallowed. -/
def emit (s : SinkState) (es : List LogEvent) : EmitOutcome :=
  match emitBody s es with
  | Except.ok o => o
  | Except.error msg =>
      ⟨s, ["There was an issue while processing event. " ++ msg], none, none, none⟩

/-- The public surface of the `AzureSink` class: `emit`, `flush` and
`toString` are its only public members. -/
inductive PublicOp where
  | emitOp (events : List LogEvent)
  | flushOp
  | toStringOp

/-- Effect of one public operation on the sink's state (for `flush`, its
synchronous part; the backend write never touches the timer or the buffer). -/
def applyPublic (s : SinkState) : PublicOp → SinkState
  | PublicOp.emitOp es => (emit s es).state
  | PublicOp.flushOp => (flushStep s).state
  | PublicOp.toStringOp => s

/-- One entry of the container's blob listing: a name plus the optional
`properties.lastModified` instant (as milliseconds). -/
structure BackendBlob where
  name : String
  lastModified : Option Nat
deriving DecidableEq

/-- One remote call issued against the storage backend. -/
inductive BackendCall where
  | existsQ (blob : String)
  | create (blob : String)
  | getProps (blob : String)
  | appendBlock (blob : String) (content : String)
  | listBlobs (pre : String)
  | deleteBlob (blob : String)
deriving DecidableEq

/-- The storage backend as an oracle: the result each remote operation would
produce, with `Except.error` modelling a thrown/rejected call (connectivity,
auth, not-found, throttling, ...). -/
structure Backend where
  existsResult : String → Except String Bool
  createResult : String → Except String Unit
  getPropsResult : String → Except String (Option Nat)
  appendResult : String → String → Except String Unit
  container : List BackendBlob
  listError : Option String
  deleteResult : String → Except String Unit

/-- Modelled from the spec: the Azure SDK's `listBlobsFlat({ prefix })` (an
external collaborator) returns the container's blobs whose names share the
given name prefix. -/
def listBlobsFlat (b : Backend) (pre : String) : Except String (List BackendBlob) :=
  match b.listError with
  | some e => Except.error e
  | none => Except.ok (b.container.filter (fun bl => List.isPrefixOf pre.data bl.name.data))

/-- The `while (blobs.length > limit) { shift; delete }` loop of
`cleanupOldBlobs`: deletes from the front of the sorted queue until at most
`limit` entries remain, stopping at the first failed delete. -/
def deleteQueue (b : Backend) (limit : Nat) : List (String × Nat) → Except String Unit × List BackendCall
  | [] => (Except.ok (), [])
  | x :: rest =>
    if limit < (x :: rest).length then
      match b.deleteResult x.1 with
      | Except.error e => (Except.error e, [BackendCall.deleteBlob x.1])
      | Except.ok _ =>
        ((deleteQueue b limit rest).1, BackendCall.deleteBlob x.1 :: (deleteQueue b limit rest).2)
    else (Except.ok (), [])

/-- The (name, lastModified) pairs `cleanupOldBlobs` collects from a
successful listing: prefix-filtered blobs that carry a `lastModified`. -/
def listedPairs (opts : InternalOptions) (b : Backend) : List (String × Nat) :=
  (b.container.filter
      (fun bl => List.isPrefixOf (stripTxt opts.storageFileName).data bl.name.data)).filterMap
    (fun bl => bl.lastModified.map (fun t => (bl.name, t)))

/-- The collected pairs sorted ascending by last-modified time with
`Array.prototype.sort` (stable, per ES2019), modelled by the stable
`List.insertionSort`. -/
def sortedBlobs (opts : InternalOptions) (b : Backend) : List (String × Nat) :=
  List.insertionSort (fun a c => a.2 ≤ c.2) (listedPairs opts b)

/-- `AzureSink.cleanupOldBlobs`: no-op when `retainedBlobCountLimit` is unset,
zero (falsy) or below 1; otherwise list the blobs sharing the stripped
base-name prefix, keep those with a `lastModified`, sort ascending by
last-modified time, and delete from the front until `limit` remain. -/
def cleanupOldBlobs (opts : InternalOptions) (b : Backend) : Except String Unit × List BackendCall :=
  match opts.retainedBlobCountLimit with
  | none => (Except.ok (), [])
  | some k =>
    if k < 1 then (Except.ok (), [])
    else
      let pre := stripTxt opts.storageFileName
      match listBlobsFlat b pre with
      | Except.error e => (Except.error e, [BackendCall.listBlobs pre])
      | Except.ok listing =>
        let blobs := listing.filterMap (fun bl => bl.lastModified.map (fun t => (bl.name, t)))
        let sorted := List.insertionSort (fun a c => a.2 ≤ c.2) blobs
        ((deleteQueue b k sorted).1, BackendCall.listBlobs pre :: (deleteQueue b k sorted).2)

/-- The names of the blobs a call trace deleted, in order. -/
def deletedNames (tr : List BackendCall) : List String :=
  tr.filterMap (fun c =>
    match c with
    | BackendCall.deleteBlob n => some n
    | _ => none)

/-- Whether a backend call is an `appendBlock`. -/
def isAppendCall : BackendCall → Bool
  | BackendCall.appendBlock _ _ => true
  | _ => false

/-- The `exists` check plus conditional `create` at the start of
`writeToAzure`, both issued against the append-blob client that was resolved
from the current blob name. -/
def existsCreatePhase (b : Backend) (name0 : String) : Except String Unit × List BackendCall :=
  match b.existsResult name0 with
  | Except.error e => (Except.error e, [BackendCall.existsQ name0])
  | Except.ok true => (Except.ok (), [BackendCall.existsQ name0])
  | Except.ok false =>
    match b.createResult name0 with
    | Except.error e => (Except.error e, [BackendCall.existsQ name0, BackendCall.create name0])
    | Except.ok _ => (Except.ok (), [BackendCall.existsQ name0, BackendCall.create name0])

/-- The size-based rotation decision of `writeToAzure`: when a blob size limit
is configured (and truthy), read the current blob's properties and, if the
current size plus the new content's byte length would exceed the limit,
produce a freshly generated blob name as the new `currentBlobName`; otherwise
keep the old name.  The properties are read from the *old* blob. -/
def rotationPhase (opts : InternalOptions) (name0 : String) (now : Timestamp)
    (content : String) (b : Backend) : Except String String × List BackendCall :=
  if truthyN opts.blobSizeLimitBytes then
    match b.getPropsResult name0 with
    | Except.error e => (Except.error e, [BackendCall.getProps name0])
    | Except.ok props =>
      if opts.blobSizeLimitBytes.getD 0 < props.getD 0 + byteLength content then
        (Except.ok (generateNewBlobName opts.storageFileName now), [BackendCall.getProps name0])
      else (Except.ok name0, [BackendCall.getProps name0])
  else (Except.ok name0, [])

/-- The body of `AzureSink.writeToAzure` (inside the `try`): resolve the
append-blob client from the current blob name, ensure the blob exists, decide
rotation (which reassigns `this.currentBlobName`), then append — via the
client resolved at the top, i.e. to the *original* blob name — and run
retention cleanup.  Returns the thrown exception (if any), the value of
`this.currentBlobName` after the body (the assignment persists even when a
later step throws), and the trace of backend calls issued. -/
def writeToAzureAttempt (opts : InternalOptions) (name0 : String) (now : Timestamp)
    (content : String) (b : Backend) : Except String Unit × String × List BackendCall :=
  match (existsCreatePhase b name0).1 with
  | Except.error e => (Except.error e, name0, (existsCreatePhase b name0).2)
  | Except.ok _ =>
    match (rotationPhase opts name0 now content b).1 with
    | Except.error e =>
        (Except.error e, name0,
          (existsCreatePhase b name0).2 ++ (rotationPhase opts name0 now content b).2)
    | Except.ok newName =>
      match b.appendResult name0 content with
      | Except.error e =>
          (Except.error e, newName,
            (existsCreatePhase b name0).2 ++ (rotationPhase opts name0 now content b).2 ++
              [BackendCall.appendBlock name0 content])
      | Except.ok _ =>
          ((cleanupOldBlobs opts b).1, newName,
            (existsCreatePhase b name0).2 ++ (rotationPhase opts name0 now content b).2 ++
              BackendCall.appendBlock name0 content :: (cleanupOldBlobs opts b).2)

/-- `AzureSink.writeToAzure`: the `try`/`catch` around the body — any thrown
exception is logged (`diag`) and swallowed.  Returns the new
`currentBlobName`, the diagnostic (if the body threw) and the call trace. -/
def writeToAzure (opts : InternalOptions) (name0 : String) (now : Timestamp)
    (content : String) (b : Backend) : String × Option String × List BackendCall :=
  match (writeToAzureAttempt opts name0 now content b).1 with
  | Except.ok _ =>
      ((writeToAzureAttempt opts name0 now content b).2.1, none,
        (writeToAzureAttempt opts name0 now content b).2.2)
  | Except.error e =>
      ((writeToAzureAttempt opts name0 now content b).2.1,
        some ("Failed to upload to azure storage account. " ++ e),
        (writeToAzureAttempt opts name0 now content b).2.2)

/-- Outcome of a full `AzureSink.flush` including the awaited backend write:
the new state, the rejection of the `flush` promise (only a render failure —
`writeToAzure` swallows everything it throws), the write path's swallowed
diagnostic, and the backend call trace. -/
structure FlushFullOutcome where
  state : SinkState
  rejection : Option String
  diag : Option String
  trace : List BackendCall

/-- `AzureSink.flush` end to end: guards, buffer swap, formatting, then the
awaited `writeToAzure` (whose `currentBlobName` assignment persists in the
state). -/
def flushFull (s : SinkState) (now : Timestamp) (b : Backend) : FlushFullOutcome :=
  match flushDetach s with
  | none => ⟨s, none, none, []⟩
  | some (batch, s1) =>
    match formatBatch batch with
    | Except.error e => ⟨s1, some e, none, []⟩
    | Except.ok text =>
      ⟨{ s1 with currentBlobName := (writeToAzure s.options s1.currentBlobName now text b).1 },
        none, (writeToAzure s.options s1.currentBlobName now text b).2.1,
        (writeToAzure s.options s1.currentBlobName now text b).2.2⟩

/-- A sample construction instant. -/
def cNow0 : Timestamp := ⟨2026, 10, 11, 12, 0, 0, 0⟩

/-- A later instant whose ISO representation differs from `cNow0`. -/
def cNow : Timestamp := ⟨2026, 10, 11, 12, 34, 56, 789⟩

/-- Yet another distinguishable instant. -/
def cNow2 : Timestamp := ⟨2026, 10, 11, 12, 34, 57, 0⟩

/-- Options with only the three required fields supplied. -/
def cRawOpts0 : AzureSinkOptions :=
  { connectionString := "cs", storageContainerName := "logs", storageFileName := "log.txt" }

/-- Options with immediate-flush mode enabled. -/
def cRawOptsIm : AzureSinkOptions :=
  { connectionString := "cs", storageContainerName := "logs", storageFileName := "log.txt",
    flushImmediately := some true }

/-- Options enabling size-based rotation with a 100-byte limit. -/
def cOpts1 : InternalOptions :=
  mergeOptions
    { connectionString := "cs", storageContainerName := "logs", storageFileName := "log.txt",
      blobSizeLimitBytes := some 100 }

/-- The active blob name generated at construction time `cNow0`. -/
def oldName1 : String := generateNewBlobName ("log.txt") cNow0

/-- A Fatal-level event whose message renders successfully. -/
def ev1 : LogEvent := ⟨"T1", 1, Except.ok ("hello")⟩

/-- A Verbose-level (63) event whose message renders successfully. -/
def ev63 : LogEvent := ⟨"T63", 63, Except.ok ("verbose message")⟩

/-- An Error-level event whose message render throws. -/
def evBad : LogEvent := ⟨"TB", 3, Except.error ("boom")⟩

/-- A 20-byte content string. -/
def cContent : String := "aaaaaaaaaaaaaaaaaaaa"

/-- A healthy backend holding one 90-byte blob (per `getProperties`) and an
empty listing. -/
def cBackend1 : Backend :=
  { existsResult := fun _ => Except.ok true
    createResult := fun _ => Except.ok ()
    getPropsResult := fun _ => Except.ok (some 90)
    appendResult := fun _ _ => Except.ok ()
    container := []
    listError := none
    deleteResult := fun _ => Except.ok () }

/-- A backend whose append call fails (e.g. connectivity loss). -/
def cBackendFail : Backend :=
  { existsResult := fun _ => Except.ok true
    createResult := fun _ => Except.ok ()
    getPropsResult := fun _ => Except.ok (some 0)
    appendResult := fun _ _ => Except.error ("network down")
    container := []
    listError := none
    deleteResult := fun _ => Except.ok () }

/-- A timed-mode sink state holding one buffered event. -/
def cSink5 : SinkState :=
  { AzureSink.new cRawOpts0 cNow0 with eventBuffer := [ev1] }

/-- The retention example backend: blobs `app-1.txt`, `app-2.txt`, `app-3.txt`
last modified at times 1, 2, 3. -/
def cBackendRet : Backend :=
  { existsResult := fun _ => Except.ok true
    createResult := fun _ => Except.ok ()
    getPropsResult := fun _ => Except.ok (some 0)
    appendResult := fun _ _ => Except.ok ()
    container := [⟨"app-1.txt", some 1⟩, ⟨"app-2.txt", some 2⟩, ⟨"app-3.txt", some 3⟩]
    listError := none
    deleteResult := fun _ => Except.ok () }

/-- Options for the retention example: base file name `app.txt`, retain 2. -/
def cOptsRet : InternalOptions :=
  mergeOptions
    { connectionString := "cs", storageContainerName := "logs", storageFileName := "app.txt",
      retainedBlobCountLimit := some 2 }

/-- The printable-range bounds of a `Timestamp`'s components (every calendar
instant satisfies them); they make the zero-padded rendering faithful. -/
def tsBounds (t : Timestamp) : Prop :=
  t.year < 10000 ∧ t.month < 100 ∧ t.day < 100 ∧ t.hour < 100 ∧
    t.minute < 100 ∧ t.second < 100 ∧ t.millis < 1000

instance : IsTotal (String × Nat) (fun a c => a.2 ≤ c.2) :=
  ⟨fun a c => Nat.le_total a.2 c.2⟩

instance : IsTrans (String × Nat) (fun a c => a.2 ≤ c.2) :=
  ⟨fun _ _ _ h1 h2 => Nat.le_trans h1 h2⟩

/-! ### Helper lemmas -/

theorem formatLines_ok (l : List LogEvent) (h : ∀ e ∈ l, (e.renderResult).isOk = true) :
    formatLines l = Except.ok (l.map lineOf) := by
  induction l with
  | nil => rfl
  | cons e rest ih =>
    have he := h e (List.mem_cons_self e rest)
    match hr : e.renderResult with
    | Except.error err => rw [hr] at he; simp [Except.isOk, Except.toBool] at he
    | Except.ok m =>
      have ihr := ih (fun x hx => h x (List.mem_cons_of_mem e hx))
      simp [formatLines, formatLine, hr, ihr, lineOf, renderOk]

theorem formatLines_error (l : List LogEvent) (msg : String)
    (h : formatLines l = Except.error msg) : ∃ e ∈ l, e.renderResult = Except.error msg := by
  induction l with
  | nil => simp [formatLines] at h
  | cons e rest ih =>
    match hr : e.renderResult with
    | Except.error err =>
      simp only [formatLines, formatLine, hr, Except.error.injEq] at h
      exact ⟨e, List.mem_cons_self e rest, by rw [hr, h]⟩
    | Except.ok m =>
      cases hrest : formatLines rest with
      | error err2 =>
        simp only [formatLines, formatLine, hr, hrest, Except.error.injEq] at h
        obtain ⟨x, hx, hxe⟩ := ih (by rw [hrest, h])
        exact ⟨x, List.mem_cons_of_mem e hx, hxe⟩
      | ok lines => simp [formatLines, formatLine, hr, hrest] at h

theorem formatBatch_ok (l : List LogEvent) (h : ∀ e ∈ l, (e.renderResult).isOk = true) :
    formatBatch l = Except.ok (String.intercalate ("\n") (l.map lineOf) ++ "\n") := by
  simp [formatBatch, formatLines_ok l h]

theorem formatBatch_error (l : List LogEvent) (msg : String)
    (h : formatBatch l = Except.error msg) : ∃ e ∈ l, e.renderResult = Except.error msg := by
  unfold formatBatch at h
  cases hl : formatLines l with
  | error err =>
    rw [hl] at h
    simp only [Except.error.injEq] at h
    exact formatLines_error l msg (by rw [hl, h])
  | ok lines => rw [hl] at h; simp at h

theorem flushStep_noop_disabled (s : SinkState) (h : s.options.disabled = true) :
    flushStep s = ⟨s, none, none, none⟩ := by
  unfold flushStep flushDetach
  simp [h]

theorem flushStep_noop_empty (s : SinkState) (h : s.eventBuffer.isEmpty = true) :
    flushStep s = ⟨s, none, none, none⟩ := by
  unfold flushStep flushDetach
  simp [h]

theorem flushStep_error (s : SinkState) (e : String) (h1 : s.options.disabled = false)
    (h2 : s.eventBuffer.isEmpty = false) (hf : formatBatch s.eventBuffer = Except.error e) :
    flushStep s = ⟨{ s with eventBuffer := [] }, some s.eventBuffer, none, some e⟩ := by
  unfold flushStep flushDetach
  simp [h1, h2, hf]

theorem flushStep_ok_text (s : SinkState) (text : String) (h1 : s.options.disabled = false)
    (h2 : s.eventBuffer.isEmpty = false) (hf : formatBatch s.eventBuffer = Except.ok text) :
    flushStep s = ⟨{ s with eventBuffer := [] }, some s.eventBuffer, some text, none⟩ := by
  unfold flushStep flushDetach
  simp [h1, h2, hf]

theorem flushStep_conservation (s : SinkState) :
    (flushStep s).detachedBatch.getD [] ++ (flushStep s).state.eventBuffer = s.eventBuffer := by
  cases hd : s.options.disabled with
  | true => rw [flushStep_noop_disabled s hd]; simp
  | false =>
    cases he : s.eventBuffer.isEmpty with
    | true => rw [flushStep_noop_empty s he]; simp
    | false =>
      cases hf : formatBatch s.eventBuffer with
      | error e => rw [flushStep_error s e hd he hf]; simp
      | ok text => rw [flushStep_ok_text s text hd he hf]; simp

theorem flushStep_timerArmed (s : SinkState) :
    (flushStep s).state.timerArmed = s.timerArmed := by
  cases hd : s.options.disabled with
  | true => rw [flushStep_noop_disabled s hd]
  | false =>
    cases he : s.eventBuffer.isEmpty with
    | true => rw [flushStep_noop_empty s he]
    | false =>
      cases hf : formatBatch s.eventBuffer with
      | error e => rw [flushStep_error s e hd he hf]
      | ok text => rw [flushStep_ok_text s text hd he hf]

theorem flushStep_options (s : SinkState) :
    (flushStep s).state.options = s.options := by
  cases hd : s.options.disabled with
  | true => rw [flushStep_noop_disabled s hd]
  | false =>
    cases he : s.eventBuffer.isEmpty with
    | true => rw [flushStep_noop_empty s he]
    | false =>
      cases hf : formatBatch s.eventBuffer with
      | error e => rw [flushStep_error s e hd he hf]
      | ok text => rw [flushStep_ok_text s text hd he hf]

theorem flushStep_rejection_some (s : SinkState) (msg : String)
    (h : (flushStep s).rejection = some msg) :
    formatBatch s.eventBuffer = Except.error msg := by
  cases hd : s.options.disabled with
  | true => rw [flushStep_noop_disabled s hd] at h; simp at h
  | false =>
    cases he : s.eventBuffer.isEmpty with
    | true => rw [flushStep_noop_empty s he] at h; simp at h
    | false =>
      cases hf : formatBatch s.eventBuffer with
      | error e =>
        rw [flushStep_error s e hd he hf] at h
        simp only [Option.some.injEq] at h
        rw [h]
      | ok text => rw [flushStep_ok_text s text hd he hf] at h; simp at h

theorem bufferedState_options (s : SinkState) (es : List LogEvent) :
    (bufferedState s es).options = s.options := rfl

theorem bufferedState_eventBuffer (s : SinkState) (es : List LogEvent) :
    (bufferedState s es).eventBuffer = s.eventBuffer ++ keptEvents s es := rfl

theorem emitBody_disabled (s : SinkState) (es : List LogEvent)
    (h : s.options.disabled = true) :
    emitBody s es = Except.ok ⟨s, [], none, none, none⟩ := by
  unfold emitBody
  simp [h]

theorem emitBody_immediate (s : SinkState) (es : List LogEvent)
    (h1 : s.options.disabled = false) (h2 : s.options.flushImmediately = true) :
    emitBody s es = Except.ok ⟨(flushStep (bufferedState s es)).state, [],
      (flushStep (bufferedState s es)).rejection,
      (flushStep (bufferedState s es)).detachedBatch,
      (flushStep (bufferedState s es)).writeRequest⟩ := by
  unfold emitBody
  rw [bufferedState_options]
  simp [h1, h2]

theorem emitBody_threshold (s : SinkState) (es : List LogEvent)
    (h1 : s.options.disabled = false) (h2 : s.options.flushImmediately = false)
    (h3 : s.options.batchPostingLimit ≤ (bufferedState s es).eventBuffer.length) :
    emitBody s es = Except.ok ⟨(flushStep (rearmedState s es)).state, [],
      (flushStep (rearmedState s es)).rejection,
      (flushStep (rearmedState s es)).detachedBatch,
      (flushStep (rearmedState s es)).writeRequest⟩ := by
  unfold emitBody
  rw [bufferedState_options]
  simp [h1, h2, h3]

theorem emitBody_below (s : SinkState) (es : List LogEvent)
    (h1 : s.options.disabled = false) (h2 : s.options.flushImmediately = false)
    (h3 : ¬ s.options.batchPostingLimit ≤ (bufferedState s es).eventBuffer.length) :
    emitBody s es = Except.ok ⟨bufferedState s es, [], none, none, none⟩ := by
  unfold emitBody
  rw [bufferedState_options]
  simp [h1, h2, h3]

theorem emit_of_body (s : SinkState) (es : List LogEvent) (o : EmitOutcome)
    (h : emitBody s es = Except.ok o) : emit s es = o := by
  unfold emit
  rw [h]

theorem emitBody_ok_cases (s : SinkState) (es : List LogEvent) :
    ∃ o : EmitOutcome, emitBody s es = Except.ok o := by
  cases hd : s.options.disabled with
  | true => exact ⟨_, emitBody_disabled s es hd⟩
  | false =>
    cases hf : s.options.flushImmediately with
    | true => exact ⟨_, emitBody_immediate s es hd hf⟩
    | false =>
      by_cases h3 : s.options.batchPostingLimit ≤ (bufferedState s es).eventBuffer.length
      · exact ⟨_, emitBody_threshold s es hd hf h3⟩
      · exact ⟨_, emitBody_below s es hd hf h3⟩

theorem emit_caughtDiag (s : SinkState) (es : List LogEvent) :
    (emit s es).caughtDiag = [] := by
  cases hd : s.options.disabled with
  | true => rw [emit_of_body s es _ (emitBody_disabled s es hd)]
  | false =>
    cases hf : s.options.flushImmediately with
    | true => rw [emit_of_body s es _ (emitBody_immediate s es hd hf)]
    | false =>
      by_cases h3 : s.options.batchPostingLimit ≤ (bufferedState s es).eventBuffer.length
      · rw [emit_of_body s es _ (emitBody_threshold s es hd hf h3)]
      · rw [emit_of_body s es _ (emitBody_below s es hd hf h3)]

theorem emit_conservation (s : SinkState) (es : List LogEvent)
    (h : s.options.disabled = false) :
    (emit s es).detachedBatch.getD [] ++ (emit s es).state.eventBuffer
      = s.eventBuffer ++ keptEvents s es := by
  cases hf : s.options.flushImmediately with
  | true =>
    rw [emit_of_body s es _ (emitBody_immediate s es h hf)]
    exact flushStep_conservation (bufferedState s es)
  | false =>
    by_cases h3 : s.options.batchPostingLimit ≤ (bufferedState s es).eventBuffer.length
    · rw [emit_of_body s es _ (emitBody_threshold s es h hf h3)]
      exact flushStep_conservation (rearmedState s es)
    · rw [emit_of_body s es _ (emitBody_below s es h hf h3)]
      simp [bufferedState_eventBuffer]

theorem emit_timerArmed (s : SinkState) (es : List LogEvent)
    (h : s.timerArmed = true) : (emit s es).state.timerArmed = true := by
  cases hd : s.options.disabled with
  | true => rw [emit_of_body s es _ (emitBody_disabled s es hd)]; exact h
  | false =>
    cases hf : s.options.flushImmediately with
    | true =>
      rw [emit_of_body s es _ (emitBody_immediate s es hd hf)]
      rw [flushStep_timerArmed]
      exact h
    | false =>
      by_cases h3 : s.options.batchPostingLimit ≤ (bufferedState s es).eventBuffer.length
      · rw [emit_of_body s es _ (emitBody_threshold s es hd hf h3)]
        rw [flushStep_timerArmed]
        rfl
      · rw [emit_of_body s es _ (emitBody_below s es hd hf h3)]
        exact h

theorem emit_rejection_source (s : SinkState) (es : List LogEvent) (msg : String)
    (h : (emit s es).rejection = some msg) :
    ∃ e, (e ∈ s.eventBuffer ∨ e ∈ es) ∧ e.renderResult = Except.error msg := by
  cases hd : s.options.disabled with
  | true => rw [emit_of_body s es _ (emitBody_disabled s es hd)] at h; simp at h
  | false =>
    cases hf : s.options.flushImmediately with
    | true =>
      rw [emit_of_body s es _ (emitBody_immediate s es hd hf)] at h
      have hfb := flushStep_rejection_some _ msg h
      rw [bufferedState_eventBuffer] at hfb
      obtain ⟨e, he, her⟩ := formatBatch_error _ msg hfb
      rcases List.mem_append.mp he with hl | hr
      · exact ⟨e, Or.inl hl, her⟩
      · exact ⟨e, Or.inr (List.mem_of_mem_filter hr), her⟩
    | false =>
      by_cases h3 : s.options.batchPostingLimit ≤ (bufferedState s es).eventBuffer.length
      · rw [emit_of_body s es _ (emitBody_threshold s es hd hf h3)] at h
        have hfb := flushStep_rejection_some _ msg h
        have : (rearmedState s es).eventBuffer = s.eventBuffer ++ keptEvents s es := rfl
        rw [this] at hfb
        obtain ⟨e, he, her⟩ := formatBatch_error _ msg hfb
        rcases List.mem_append.mp he with hl | hr
        · exact ⟨e, Or.inl hl, her⟩
        · exact ⟨e, Or.inr (List.mem_of_mem_filter hr), her⟩
      · rw [emit_of_body s es _ (emitBody_below s es hd hf h3)] at h
        simp at h

/-! ### Claim theorems -/

/-- C4: the claim asserts the sink exposes a public stop/disposal operation
that cancels the armed periodic flush timer.  The class has no such member
(`emit`, `flush`, `toString` are its whole public surface and `clearInterval`
only occurs inside `startTimer`, which immediately re-arms): a timed-mode
sink's timer is armed at construction and no public operation ever leaves it
cleared. -/
theorem timer_never_cleared_by_public_ops :
    (∀ (o : AzureSinkOptions) (t : Timestamp),
        (mergeOptions o).flushImmediately = false → (AzureSink.new o t).timerArmed = true) ∧
    (∀ (s : SinkState) (op : PublicOp),
        s.timerArmed = true → (applyPublic s op).timerArmed = true) := by
  constructor
  · intro o t h
    unfold AzureSink.new
    simp [h]
  · intro s op h
    cases op with
    | emitOp es => exact emit_timerArmed s es h
    | flushOp =>
      show (flushStep s).state.timerArmed = true
      rw [flushStep_timerArmed]
      exact h
    | toStringOp => exact h

/-- C4 witness: a concretely constructed timed-mode sink has its timer armed,
and it stays armed across a public flush. -/
theorem timer_never_cleared_by_public_ops_witness :
    (AzureSink.new cRawOpts0 cNow0).timerArmed = true ∧
    (applyPublic (AzureSink.new cRawOpts0 cNow0) PublicOp.flushOp).timerArmed = true := by
  refine ⟨timer_never_cleared_by_public_ops.1 cRawOpts0 cNow0 (by rfl), ?_⟩
  exact timer_never_cleared_by_public_ops.2 _ _
    (timer_never_cleared_by_public_ops.1 cRawOpts0 cNow0 (by rfl))

/-- C7: on an enabled sink, the events `emit` adds (across the detached batch
of any triggered flush plus the surviving buffer) are exactly the incoming
events with level ≤ the configured minimum level, and an incoming event
survives the filter iff its numeric level is ≤ the threshold. -/
theorem emit_level_filter_spec (s : SinkState) (es : List LogEvent)
    (h : s.options.disabled = false) :
    ((emit s es).detachedBatch.getD [] ++ (emit s es).state.eventBuffer
      = s.eventBuffer
          ++ es.filter (fun e => decide (e.level ≤ s.options.restrictedToMinimumLevel))) ∧
    (∀ e : LogEvent,
      e ∈ es.filter (fun e => decide (e.level ≤ s.options.restrictedToMinimumLevel)) ↔
        e ∈ es ∧ e.level ≤ s.options.restrictedToMinimumLevel) := by
  constructor
  · exact emit_conservation s es h
  · intro e
    simp [List.mem_filter]

/-- C7 witness: on a freshly constructed enabled sink, emitting a Fatal and a
Verbose event buffers exactly the filter's survivors. -/
theorem emit_level_filter_spec_witness :
    (emit (AzureSink.new cRawOpts0 cNow0) [ev1, ev63]).detachedBatch.getD []
        ++ (emit (AzureSink.new cRawOpts0 cNow0) [ev1, ev63]).state.eventBuffer
      = (AzureSink.new cRawOpts0 cNow0).eventBuffer
          ++ [ev1, ev63].filter (fun e => decide (e.level ≤
              (AzureSink.new cRawOpts0 cNow0).options.restrictedToMinimumLevel)) :=
  (emit_level_filter_spec (AzureSink.new cRawOpts0 cNow0) [ev1, ev63] (by rfl)).1

/-- C2 counterexample: with no minimum-level option supplied, the default
filter is `LogEventLevel.debug` (31), not the most verbose level: a
Verbose-level (63) event is dropped by the default configuration (it ends up
neither in the buffer nor in any detached batch), contradicting the claim
that no event is dropped by the default filter. -/
theorem default_min_level_drops_verbose_cex :
    ev63.level = levelVerbose ∧
    (emit (AzureSink.new cRawOpts0 cNow0) [ev63]).state.eventBuffer = [] ∧
    (emit (AzureSink.new cRawOpts0 cNow0) [ev63]).detachedBatch = none :=
  ⟨rfl, rfl, rfl⟩

/-- C2 (amended): when the caller does not supply a minimum-level option, the
default minimum severity filter is Debug (31): the default configuration
buffers exactly the events with level ≤ 31, and Verbose-level (63) events are
dropped by the default filter. -/
theorem default_min_level_debug_spec (o : AzureSinkOptions) (t : Timestamp)
    (es : List LogEvent) (h : o.restrictedToMinimumLevel = none) (hd : o.disabled = none) :
    ((mergeOptions o).restrictedToMinimumLevel = levelDebug) ∧
    ((emit (AzureSink.new o t) es).detachedBatch.getD []
        ++ (emit (AzureSink.new o t) es).state.eventBuffer
      = es.filter (fun e => decide (e.level ≤ levelDebug))) ∧
    (∀ e : LogEvent, e.level = levelVerbose →
      decide (e.level ≤ (mergeOptions o).restrictedToMinimumLevel) = false) := by
  have hmin : (mergeOptions o).restrictedToMinimumLevel = levelDebug := by
    simp [mergeOptions, h]
  refine ⟨hmin, ?_, ?_⟩
  · have hdis : (AzureSink.new o t).options.disabled = false := by
      show (mergeOptions o).disabled = false
      simp [mergeOptions, hd]
    have hc := emit_conservation (AzureSink.new o t) es hdis
    rw [hc]
    show ([] : List LogEvent)
        ++ es.filter (fun e => decide (e.level ≤ (mergeOptions o).restrictedToMinimumLevel))
      = es.filter (fun e => decide (e.level ≤ levelDebug))
    simp only [hmin, List.nil_append]
  · intro e he
    simp only [he, hmin]
    decide

/-- C2 witness: for the concrete default options the merged minimum level is
Debug (31). -/
theorem default_min_level_debug_spec_witness :
    (mergeOptions cRawOpts0).restrictedToMinimumLevel = levelDebug :=
  (default_min_level_debug_spec cRawOpts0 cNow0 [ev63] rfl rfl).1

/-- C5: for a non-empty buffer on an enabled sink, flush detaches the whole
buffer and installs an empty one before any formatting or I/O; any text it
hands to the writer is the formatting of exactly that snapshot; and events
emitted after the detach point end up (once each) in the new buffer or a
later flush's detached batch — never in the in-flight flush's text. -/
theorem flush_buffer_swap_spec (s : SinkState) (es : List LogEvent)
    (h1 : s.options.disabled = false) (h2 : s.eventBuffer ≠ []) :
    (flushDetach s = some (s.eventBuffer, { s with eventBuffer := [] })) ∧
    ((flushStep s).detachedBatch = some s.eventBuffer) ∧
    (∀ text, (flushStep s).writeRequest = some text →
        formatBatch s.eventBuffer = Except.ok text) ∧
    ((emit { s with eventBuffer := [] } es).detachedBatch.getD []
        ++ (emit { s with eventBuffer := [] } es).state.eventBuffer
      = es.filter (fun e => decide (e.level ≤ s.options.restrictedToMinimumLevel))) := by
  have hie : s.eventBuffer.isEmpty = false := by
    cases hb : s.eventBuffer with
    | nil => exact absurd hb h2
    | cons a l => rfl
  refine ⟨?_, ?_, ?_, ?_⟩
  · unfold flushDetach
    simp [h1, hie]
  · cases hf : formatBatch s.eventBuffer with
    | error e => rw [flushStep_error s e h1 hie hf]
    | ok text => rw [flushStep_ok_text s text h1 hie hf]
  · intro text ht
    cases hf : formatBatch s.eventBuffer with
    | error e => rw [flushStep_error s e h1 hie hf] at ht; simp at ht
    | ok t0 =>
      rw [flushStep_ok_text s t0 h1 hie hf] at ht
      simp only [Option.some.injEq] at ht
      rw [ht]
  · have hc := emit_conservation { s with eventBuffer := [] } es h1
    rw [hc]
    show ([] : List LogEvent)
        ++ es.filter (fun e => decide (e.level ≤ s.options.restrictedToMinimumLevel))
      = es.filter (fun e => decide (e.level ≤ s.options.restrictedToMinimumLevel))
    simp

/-- C5 witness: on a concrete one-event buffer the detach returns exactly that
buffer and installs an empty one. -/
theorem flush_buffer_swap_spec_witness :
    flushDetach cSink5 = some (cSink5.eventBuffer, { cSink5 with eventBuffer := [] }) :=
  (flush_buffer_swap_spec cSink5 [ev63] (by rfl) (by simp [cSink5])).1

/-- C3 counterexample: in immediate-flush mode a message-render failure inside
the emit-triggered flush is not caught at the emit boundary and not reported
to emit's diagnostics: emit returns normally with empty catch diagnostics
while the failure is only the unhandled rejection of the un-awaited `flush()`
promise (and the failed batch has already been evicted from the buffer).
This refutes the claim that a render failure is caught at the emit boundary
and reported to diagnostics. -/
theorem emit_render_failure_unreported_cex :
    (emit (AzureSink.new cRawOptsIm cNow0) [evBad]).caughtDiag = [] ∧
    (emit (AzureSink.new cRawOptsIm cNow0) [evBad]).rejection = some ("boom") ∧
    (emit (AzureSink.new cRawOptsIm cNow0) [evBad]).state.eventBuffer = [] :=
  ⟨rfl, rfl, rfl⟩

/-- C3 (amended): emit never raises to its caller — its body always returns
normally (so the emit-boundary catch never fires and its diagnostics stay
empty); a message-render failure is not caught at the emit boundary: it can
only surface as the rejection of the fire-and-forget flush promise, and any
such rejection is the render failure of some buffered or incoming event. -/
theorem emit_boundary_spec (s : SinkState) (es : List LogEvent) :
    ((emitBody s es).isOk = true) ∧
    ((emit s es).caughtDiag = []) ∧
    (∀ msg, (emit s es).rejection = some msg →
      ∃ e, (e ∈ s.eventBuffer ∨ e ∈ es) ∧ e.renderResult = Except.error msg) := by
  refine ⟨?_, emit_caughtDiag s es, fun msg h => emit_rejection_source s es msg h⟩
  obtain ⟨o, ho⟩ := emitBody_ok_cases s es
  rw [ho]
  rfl

/-- C3 witness: at a concrete immediate-mode sink with a failing-render event,
emit's diagnostics are empty and the rejection is traced to that event's
render failure. -/
theorem emit_boundary_spec_witness :
    (emit (AzureSink.new cRawOptsIm cNow0) [evBad]).caughtDiag = [] ∧
    (∃ e, (e ∈ (AzureSink.new cRawOptsIm cNow0).eventBuffer ∨ e ∈ [evBad]) ∧
      e.renderResult = Except.error ("boom")) :=
  ⟨(emit_boundary_spec (AzureSink.new cRawOptsIm cNow0) [evBad]).2.1,
   (emit_boundary_spec (AzureSink.new cRawOptsIm cNow0) [evBad]).2.2 ("boom") (by rfl)⟩

theorem existsCreatePhase_no_append (b : Backend) (name0 : String) :
    ((existsCreatePhase b name0).2).filter isAppendCall = [] := by
  unfold existsCreatePhase
  cases h : b.existsResult name0 with
  | error e => simp [h, isAppendCall]
  | ok v =>
    cases v
    · cases h2 : b.createResult name0 <;> simp [h, h2, isAppendCall]
    · simp [h, isAppendCall]

theorem rotationPhase_no_append (opts : InternalOptions) (name0 : String) (now : Timestamp)
    (content : String) (b : Backend) :
    ((rotationPhase opts name0 now content b).2).filter isAppendCall = [] := by
  unfold rotationPhase
  cases ht : truthyN opts.blobSizeLimitBytes with
  | false => simp [ht]
  | true =>
    simp only [ht]
    cases h2 : b.getPropsResult name0 with
    | error e => simp [h2, isAppendCall]
    | ok props =>
      simp only [h2]
      by_cases hc : opts.blobSizeLimitBytes.getD 0 < props.getD 0 + byteLength content
      · simp [hc, isAppendCall]
      · simp [hc, isAppendCall]

theorem deleteQueue_no_append (b : Backend) (k : Nat) :
    ∀ l : List (String × Nat), ((deleteQueue b k l).2).filter isAppendCall = []
  | [] => by simp [deleteQueue]
  | x :: rest => by
    unfold deleteQueue
    split
    · cases h : b.deleteResult x.1 with
      | error e => simp [h, isAppendCall]
      | ok u => simp [h, isAppendCall, deleteQueue_no_append b k rest]
    · simp

theorem cleanupOldBlobs_no_append (opts : InternalOptions) (b : Backend) :
    ((cleanupOldBlobs opts b).2).filter isAppendCall = [] := by
  unfold cleanupOldBlobs
  cases hr : opts.retainedBlobCountLimit with
  | none => simp
  | some k =>
    by_cases hk : k < 1
    · simp [hk]
    · cases hl : listBlobsFlat b (stripTxt opts.storageFileName) with
      | error e => simp [hk, hl, isAppendCall]
      | ok listing => simp [hk, hl, isAppendCall, deleteQueue_no_append]

theorem append_not_mem_of_filter_nil {l : List BackendCall}
    (h : l.filter isAppendCall = []) (nm c : String) :
    BackendCall.appendBlock nm c ∉ l := by
  intro hm
  have hmem : BackendCall.appendBlock nm c ∈ l.filter isAppendCall :=
    List.mem_filter.mpr ⟨hm, rfl⟩
  rw [h] at hmem
  simp at hmem

theorem writeToAzureAttempt_append_target (opts : InternalOptions) (name0 : String)
    (now : Timestamp) (content : String) (b : Backend) (nm c : String)
    (h : BackendCall.appendBlock nm c ∈ (writeToAzureAttempt opts name0 now content b).2.2) :
    nm = name0 ∧ c = content := by
  unfold writeToAzureAttempt at h
  cases h1 : (existsCreatePhase b name0).1 with
  | error e =>
    rw [h1] at h
    exact absurd h (append_not_mem_of_filter_nil (existsCreatePhase_no_append b name0) nm c)
  | ok u =>
    rw [h1] at h
    cases h2 : (rotationPhase opts name0 now content b).1 with
    | error e =>
      rw [h2] at h
      rcases List.mem_append.mp h with hm | hm
      · exact absurd hm (append_not_mem_of_filter_nil (existsCreatePhase_no_append b name0) nm c)
      · exact absurd hm
          (append_not_mem_of_filter_nil (rotationPhase_no_append opts name0 now content b) nm c)
    | ok newName =>
      rw [h2] at h
      cases h3 : b.appendResult name0 content with
      | error e =>
        rw [h3] at h
        rcases List.mem_append.mp h with hm | hm
        · rcases List.mem_append.mp hm with hm2 | hm2
          · exact absurd hm2
              (append_not_mem_of_filter_nil (existsCreatePhase_no_append b name0) nm c)
          · exact absurd hm2
              (append_not_mem_of_filter_nil (rotationPhase_no_append opts name0 now content b) nm c)
        · simp at hm
          exact ⟨hm.1, hm.2⟩
      | ok u2 =>
        rw [h3] at h
        rcases List.mem_append.mp h with hm | hm
        · rcases List.mem_append.mp hm with hm2 | hm2
          · exact absurd hm2
              (append_not_mem_of_filter_nil (existsCreatePhase_no_append b name0) nm c)
          · exact absurd hm2
              (append_not_mem_of_filter_nil (rotationPhase_no_append opts name0 now content b) nm c)
        · rcases List.mem_cons.mp hm with hm2 | hm2
          · simp at hm2
            exact ⟨hm2.1, hm2.2⟩
          · exact absurd hm2
              (append_not_mem_of_filter_nil (cleanupOldBlobs_no_append opts b) nm c)

theorem writeToAzureAttempt_append_count (opts : InternalOptions) (name0 : String)
    (now : Timestamp) (content : String) (b : Backend) :
    (((writeToAzureAttempt opts name0 now content b).2.2).filter isAppendCall).length ≤ 1 := by
  unfold writeToAzureAttempt
  cases h1 : (existsCreatePhase b name0).1 with
  | error e => simp [existsCreatePhase_no_append b name0]
  | ok u =>
    cases h2 : (rotationPhase opts name0 now content b).1 with
    | error e =>
      simp [List.filter_append, existsCreatePhase_no_append b name0,
        rotationPhase_no_append opts name0 now content b]
    | ok newName =>
      cases h3 : b.appendResult name0 content with
      | error e =>
        simp [List.filter_append, existsCreatePhase_no_append b name0,
          rotationPhase_no_append opts name0 now content b, isAppendCall]
      | ok u2 =>
        simp [List.filter_append, existsCreatePhase_no_append b name0,
          rotationPhase_no_append opts name0 now content b,
          cleanupOldBlobs_no_append opts b, isAppendCall]

theorem writeToAzure_trace (opts : InternalOptions) (name0 : String) (now : Timestamp)
    (content : String) (b : Backend) :
    (writeToAzure opts name0 now content b).2.2
      = (writeToAzureAttempt opts name0 now content b).2.2 := by
  unfold writeToAzure
  cases h : (writeToAzureAttempt opts name0 now content b).1 <;> rfl

theorem writeToAzure_name (opts : InternalOptions) (name0 : String) (now : Timestamp)
    (content : String) (b : Backend) :
    (writeToAzure opts name0 now content b).1
      = (writeToAzureAttempt opts name0 now content b).2.1 := by
  unfold writeToAzure
  cases h : (writeToAzureAttempt opts name0 now content b).1 <;> rfl

theorem writeToAzureAttempt_rotated_name (opts : InternalOptions) (name0 : String)
    (now : Timestamp) (content : String) (b : Backend) (cur : Option Nat)
    (hEC : (existsCreatePhase b name0).1 = Except.ok ())
    (ht : truthyN opts.blobSizeLimitBytes = true)
    (hProps : b.getPropsResult name0 = Except.ok cur)
    (hOver : opts.blobSizeLimitBytes.getD 0 < cur.getD 0 + byteLength content) :
    (writeToAzureAttempt opts name0 now content b).2.1
      = generateNewBlobName opts.storageFileName now := by
  have hrot : (rotationPhase opts name0 now content b).1
      = Except.ok (generateNewBlobName opts.storageFileName now) := by
    unfold rotationPhase
    simp [ht, hProps, hOver]
  unfold writeToAzureAttempt
  rw [hEC, hrot]
  cases h3 : b.appendResult name0 content <;> rfl

theorem flushFull_components (s : SinkState) (now : Timestamp) (b : Backend) (text : String)
    (h1 : s.options.disabled = false) (h2 : s.eventBuffer.isEmpty = false)
    (hok : formatBatch s.eventBuffer = Except.ok text) :
    (flushFull s now b).rejection = none ∧
    (flushFull s now b).state.eventBuffer = [] ∧
    (flushFull s now b).trace
      = (writeToAzure s.options s.currentBlobName now text b).2.2 := by
  unfold flushFull flushDetach
  simp [h1, h2, hok]

/-- C1 counterexample: with a 100-byte size limit, a current blob reported at
90 bytes and a 20-byte write, `writeToAzure` generates a new active blob name
before appending — but its single `appendBlock` call still targets the old
blob (the append client was resolved from the old name before the rotation
check), so the write lands in the old blob and not in the newly named one,
contrary to the claim. -/
theorem writeToAzure_rotation_append_targets_old_cex :
    (writeToAzure cOpts1 oldName1 cNow cContent cBackend1).2.2
      = [BackendCall.existsQ oldName1, BackendCall.getProps oldName1,
         BackendCall.appendBlock oldName1 cContent] ∧
    (writeToAzure cOpts1 oldName1 cNow cContent cBackend1).1
      = generateNewBlobName ("log.txt") cNow ∧
    generateNewBlobName ("log.txt") cNow ≠ oldName1 :=
  ⟨by rfl, by rfl, by decide⟩

/-- C1 (amended): when the size check decides to rotate, the write operation
generates the new active blob name before appending, but the in-progress
append still lands in the previously active blob (every `appendBlock` of this
write targets the old name); only afterwards does the new name become the
write target, so the old blob receives no appends after the in-progress one —
every `appendBlock` of a subsequent write targets the newly generated name. -/
theorem writeToAzure_rotation_spec (opts : InternalOptions) (name0 : String)
    (now now2 : Timestamp) (content content2 : String) (b b2 : Backend) (cur : Option Nat)
    (hEC : (existsCreatePhase b name0).1 = Except.ok ())
    (ht : truthyN opts.blobSizeLimitBytes = true)
    (hProps : b.getPropsResult name0 = Except.ok cur)
    (hOver : opts.blobSizeLimitBytes.getD 0 < cur.getD 0 + byteLength content) :
    ((writeToAzure opts name0 now content b).1
      = generateNewBlobName opts.storageFileName now) ∧
    (∀ nm c, BackendCall.appendBlock nm c ∈ (writeToAzure opts name0 now content b).2.2 →
      nm = name0) ∧
    (∀ nm c, BackendCall.appendBlock nm c ∈
        (writeToAzure opts (writeToAzure opts name0 now content b).1 now2 content2 b2).2.2 →
      nm = generateNewBlobName opts.storageFileName now) := by
  have hname : (writeToAzure opts name0 now content b).1
      = generateNewBlobName opts.storageFileName now := by
    rw [writeToAzure_name]
    exact writeToAzureAttempt_rotated_name opts name0 now content b cur hEC ht hProps hOver
  refine ⟨hname, ?_, ?_⟩
  · intro nm c hm
    rw [writeToAzure_trace] at hm
    exact (writeToAzureAttempt_append_target opts name0 now content b nm c hm).1
  · intro nm c hm
    rw [writeToAzure_trace] at hm
    have h0 := (writeToAzureAttempt_append_target opts _ now2 content2 b2 nm c hm).1
    rw [h0, hname]

/-- C1 witness: the amended rotation behavior at the concrete 90+20 over 100
example. -/
theorem writeToAzure_rotation_spec_witness :
    (writeToAzure cOpts1 oldName1 cNow2 cContent cBackend1).1
      = generateNewBlobName cOpts1.storageFileName cNow2 :=
  (writeToAzure_rotation_spec cOpts1 oldName1 cNow2 cNow cContent cContent
    cBackend1 cBackend1 (some 90) (by rfl) (by rfl) (by rfl) (by decide)).1

/-- C9: for a non-empty batch on an enabled sink whose events all render,
flush hands the blob writer exactly the per-event lines
`[<timestamp> <level-label>]: <rendered message>` joined with newlines plus
one trailing newline, where the level label is the fixed total lookup
1 Fatal, 3 Error, 7 Warning, 31 Debug, 63 Verbose, anything else
Information. -/
theorem flush_format_spec (s : SinkState)
    (h1 : s.options.disabled = false) (h2 : s.eventBuffer ≠ [])
    (h3 : ∀ e ∈ s.eventBuffer, (e.renderResult).isOk = true) :
    ((flushStep s).writeRequest
      = some (String.intercalate ("\n") (s.eventBuffer.map lineOf) ++ "\n")) ∧
    mapLogLevel 1 = ("Fatal") ∧ mapLogLevel 3 = ("Error") ∧
    mapLogLevel 7 = ("Warning") ∧ mapLogLevel 31 = ("Debug") ∧
    mapLogLevel 63 = ("Verbose") ∧
    (∀ n : Nat, n ≠ 1 → n ≠ 3 → n ≠ 7 → n ≠ 31 → n ≠ 63 →
      mapLogLevel n = ("Information")) := by
  have hie : s.eventBuffer.isEmpty = false := by
    cases hb : s.eventBuffer with
    | nil => exact absurd hb h2
    | cons a l => rfl
  refine ⟨?_, rfl, rfl, rfl, rfl, rfl, ?_⟩
  · rw [flushStep_ok_text s _ h1 hie (formatBatch_ok s.eventBuffer h3)]
  · intro n n1 n3 n7 n31 n63
    simp [mapLogLevel, n1, n3, n7, n31, n63]

/-- C9 witness: the concrete one-event buffer is formatted to exactly
`[T1 Fatal]: hello` plus the trailing newline. -/
theorem flush_format_spec_witness :
    (flushStep cSink5).writeRequest = some ("[T1 Fatal]: hello\n") :=
  Eq.trans
    (flush_format_spec cSink5 rfl (by simp [cSink5])
      (by
        intro e he
        simp only [cSink5] at he
        simp at he
        rw [he]
        rfl)).1
    (by rfl)

/-- C10: for every backend behavior — including one whose append (or any
other remote call) fails — a flush of a non-empty, all-rendering buffer
completes without raising (the write operation catches and swallows its own
exception), leaves the buffer empty afterwards (the failed batch is not
re-queued), and issues at most one append attempt (no retry). -/
theorem flush_backend_failure_swallowed (s : SinkState) (now : Timestamp) (b : Backend)
    (h1 : s.options.disabled = false) (h2 : s.eventBuffer ≠ [])
    (h3 : ∀ e ∈ s.eventBuffer, (e.renderResult).isOk = true) :
    ((flushFull s now b).rejection = none) ∧
    ((flushFull s now b).state.eventBuffer = []) ∧
    (((flushFull s now b).trace.filter isAppendCall).length ≤ 1) := by
  have hie : s.eventBuffer.isEmpty = false := by
    cases hb : s.eventBuffer with
    | nil => exact absurd hb h2
    | cons a l => rfl
  obtain ⟨hrj, hbuf, htr⟩ :=
    flushFull_components s now b _ h1 hie (formatBatch_ok s.eventBuffer h3)
  refine ⟨hrj, hbuf, ?_⟩
  rw [htr, writeToAzure_trace]
  exact writeToAzureAttempt_append_count s.options s.currentBlobName now _ b

/-- C10 witness: with a concrete backend whose append call fails, the flush
still completes without raising, the buffer stays empty and exactly one
append was attempted. -/
theorem flush_backend_failure_swallowed_witness :
    ((flushFull cSink5 cNow0 cBackendFail).rejection = none) ∧
    ((flushFull cSink5 cNow0 cBackendFail).state.eventBuffer = []) ∧
    (((flushFull cSink5 cNow0 cBackendFail).trace.filter isAppendCall).length ≤ 1) :=
  flush_backend_failure_swallowed cSink5 cNow0 cBackendFail rfl (by simp [cSink5])
    (by
      intro e he
      simp only [cSink5] at he
      simp at he
      rw [he]
      rfl)

theorem deleteQueue_ok (b : Backend) (k : Nat) (hdel : ∀ nm, b.deleteResult nm = Except.ok ()) :
    ∀ l : List (String × Nat),
      deleteQueue b k l
        = (Except.ok (), (l.take (l.length - k)).map (fun p => BackendCall.deleteBlob p.1))
  | [] => by simp [deleteQueue]
  | x :: rest => by
    unfold deleteQueue
    by_cases hlen : k < (x :: rest).length
    · rw [if_pos hlen, hdel x.1, deleteQueue_ok b k hdel rest]
      have hk : (x :: rest).length - k = (rest.length - k) + 1 := by
        simp only [List.length_cons] at hlen ⊢
        omega
      rw [hk]
      simp
    · rw [if_neg hlen]
      have h0 : (x :: rest).length - k = 0 := by
        simp only [List.length_cons] at hlen ⊢
        omega
      rw [h0]
      simp

theorem deletedNames_delete_map (l : List (String × Nat)) :
    deletedNames (l.map (fun p => BackendCall.deleteBlob p.1)) = l.map Prod.fst := by
  induction l with
  | nil => rfl
  | cons x rest ih =>
    simp only [List.map_cons, deletedNames, List.filterMap_cons] at ih ⊢
    rw [ih]

theorem cleanupOldBlobs_valid (opts : InternalOptions) (b : Backend) (k : Nat)
    (hr : opts.retainedBlobCountLimit = some k) (hk : 1 ≤ k) (hl : b.listError = none) :
    cleanupOldBlobs opts b
      = ((deleteQueue b k (sortedBlobs opts b)).1,
         BackendCall.listBlobs (stripTxt opts.storageFileName)
           :: (deleteQueue b k (sortedBlobs opts b)).2) := by
  have hk2 : ¬ k < 1 := by omega
  have hlist : listBlobsFlat b (stripTxt opts.storageFileName)
      = Except.ok (b.container.filter
          (fun bl => List.isPrefixOf (stripTxt opts.storageFileName).data bl.name.data)) := by
    unfold listBlobsFlat
    rw [hl]
  unfold cleanupOldBlobs
  rw [hr]
  simp only [hk2, if_false, hlist]
  rfl

theorem orderedInsert_filter_key (x : String × Nat) (t : Nat) :
    ∀ l : List (String × Nat),
      (List.orderedInsert (fun a c => a.2 ≤ c.2) x l).filter (fun p => decide (p.2 = t))
        = if x.2 = t then x :: l.filter (fun p => decide (p.2 = t))
          else l.filter (fun p => decide (p.2 = t))
  | [] => by
    by_cases hx : x.2 = t <;> simp [List.orderedInsert, hx]
  | y :: rest => by
    by_cases hle : x.2 ≤ y.2
    · rw [List.orderedInsert, if_pos hle]
      by_cases hx : x.2 = t <;> simp [hx]
    · rw [List.orderedInsert, if_neg hle]
      have hlt : y.2 < x.2 := Nat.lt_of_not_le hle
      by_cases hx : x.2 = t
      · have hy : ¬ (y.2 = t) := by omega
        simp [hx, hy, orderedInsert_filter_key x t rest]
      · by_cases hy : y.2 = t <;>
          simp [hx, hy, orderedInsert_filter_key x t rest]

theorem insertionSort_filter_key (t : Nat) :
    ∀ l : List (String × Nat),
      (List.insertionSort (fun a c => a.2 ≤ c.2) l).filter (fun p => decide (p.2 = t))
        = l.filter (fun p => decide (p.2 = t))
  | [] => rfl
  | x :: rest => by
    simp only [List.insertionSort]
    rw [orderedInsert_filter_key x t]
    by_cases hx : x.2 = t <;> simp [hx, insertionSort_filter_key t rest]

/-- C6: retention enforcement is a no-op when the retain limit is unset or
below 1; otherwise it lists only blobs whose names share the stripped
base-name prefix, keeps those with a `lastModified`, sorts them ascending by
last-modified time with ties kept in listing order (the per-key projection of
the sorted list equals that of the listing), and deletes exactly the oldest
from the front, leaving min(count, limit) blobs — exactly `retainLimit` when
enough blobs exist. -/
theorem cleanupOldBlobs_retention_spec (opts : InternalOptions) (b : Backend) :
    ((opts.retainedBlobCountLimit = none ∨ opts.retainedBlobCountLimit = some 0) →
      cleanupOldBlobs opts b = (Except.ok (), [])) ∧
    (∀ k, opts.retainedBlobCountLimit = some k → 1 ≤ k → b.listError = none →
      (∀ nm, b.deleteResult nm = Except.ok ()) →
      (deletedNames (cleanupOldBlobs opts b).2
          = ((sortedBlobs opts b).take ((sortedBlobs opts b).length - k)).map Prod.fst) ∧
      ((sortedBlobs opts b).length - (deletedNames (cleanupOldBlobs opts b).2).length
          = min (sortedBlobs opts b).length k) ∧
      List.Pairwise (fun a c => a.2 ≤ c.2) (sortedBlobs opts b) ∧
      (∀ t, (sortedBlobs opts b).filter (fun p => decide (p.2 = t))
          = (listedPairs opts b).filter (fun p => decide (p.2 = t)))) := by
  constructor
  · intro h
    unfold cleanupOldBlobs
    rcases h with h | h <;> simp [h]
  · intro k hr hk hl hdel
    have hchar := cleanupOldBlobs_valid opts b k hr hk hl
    have hq := deleteQueue_ok b k hdel (sortedBlobs opts b)
    have hnames : deletedNames (cleanupOldBlobs opts b).2
        = ((sortedBlobs opts b).take ((sortedBlobs opts b).length - k)).map Prod.fst := by
      rw [hchar]
      show deletedNames (BackendCall.listBlobs (stripTxt opts.storageFileName)
          :: (deleteQueue b k (sortedBlobs opts b)).2) = _
      rw [hq]
      simp only [deletedNames, List.filterMap_cons]
      exact deletedNames_delete_map _
    refine ⟨hnames, ?_, ?_, ?_⟩
    · rw [hnames]
      simp only [List.length_map, List.length_take]
      omega
    · exact List.sorted_insertionSort (fun a c => a.2 ≤ c.2) (listedPairs opts b)
    · intro t
      exact insertionSort_filter_key t (listedPairs opts b)

/-- C6 witness: blobs `app-1.txt`, `app-2.txt`, `app-3.txt` at times 1, 2, 3
with prefix `app` and retain limit 2: the enforcement's deletions follow the
take-from-the-sorted-front formula and delete exactly `app-1.txt`. -/
theorem cleanupOldBlobs_retention_spec_witness :
    (deletedNames (cleanupOldBlobs cOptsRet cBackendRet).2
      = ((sortedBlobs cOptsRet cBackendRet).take
          ((sortedBlobs cOptsRet cBackendRet).length - 2)).map Prod.fst) ∧
    deletedNames (cleanupOldBlobs cOptsRet cBackendRet).2 = ["app-1.txt"] :=
  ⟨((cleanupOldBlobs_retention_spec cOptsRet cBackendRet).2 2 rfl (by decide) rfl
      (fun _ => rfl)).1,
   by rfl⟩

theorem digit_inj : ∀ a, a < 10 → ∀ c, c < 10 → digit a = digit c → a = c := by decide

theorem sanitizeChar_digit : ∀ m : Nat, sanitizeChar (digit m) = digit m
  | 0 => by decide
  | 1 => by decide
  | 2 => by decide
  | 3 => by decide
  | 4 => by decide
  | 5 => by decide
  | 6 => by decide
  | 7 => by decide
  | 8 => by decide
  | (n + 9) => by
      show sanitizeChar ('9') = '9'
      decide

theorem sanitizeChar_hyphen : sanitizeChar ('-') = '-' := by decide

theorem sanitizeChar_upperT : sanitizeChar ('T') = 'T' := by decide

theorem sanitizeChar_colon : sanitizeChar (':') = '-' := by decide

theorem sanitizeChar_dot : sanitizeChar ('.') = '-' := by decide

theorem sanitizeChar_upperZ : sanitizeChar ('Z') = 'Z' := by decide

theorem sanitize_isoChars (t : Timestamp) : sanitizeChars (isoChars t) = isoSanChars t := by
  unfold sanitizeChars isoChars isoSanChars pad4 pad3 pad2
  simp [sanitizeChar_digit, sanitizeChar_hyphen, sanitizeChar_upperT, sanitizeChar_colon,
    sanitizeChar_dot, sanitizeChar_upperZ]

theorem pad2_inj (a c : Nat) (ha : a < 100) (hc : c < 100) (h : pad2 a = pad2 c) : a = c := by
  simp only [pad2, List.cons.injEq, and_true] at h
  obtain ⟨h1, h2⟩ := h
  have e1 := digit_inj (a / 10) (by omega) (c / 10) (by omega) h1
  have e2 := digit_inj (a % 10) (by omega) (c % 10) (by omega) h2
  omega

theorem pad3_inj (a c : Nat) (ha : a < 1000) (hc : c < 1000) (h : pad3 a = pad3 c) : a = c := by
  simp only [pad3, List.cons.injEq, and_true] at h
  obtain ⟨h1, h2, h3⟩ := h
  have e1 := digit_inj (a / 100) (by omega) (c / 100) (by omega) h1
  have e2 := digit_inj (a / 10 % 10) (by omega) (c / 10 % 10) (by omega) h2
  have e3 := digit_inj (a % 10) (by omega) (c % 10) (by omega) h3
  omega

theorem pad4_inj (a c : Nat) (ha : a < 10000) (hc : c < 10000) (h : pad4 a = pad4 c) : a = c := by
  simp only [pad4, List.cons.injEq, and_true] at h
  obtain ⟨h1, h2, h3, h4⟩ := h
  have e1 := digit_inj (a / 1000) (by omega) (c / 1000) (by omega) h1
  have e2 := digit_inj (a / 100 % 10) (by omega) (c / 100 % 10) (by omega) h2
  have e3 := digit_inj (a / 10 % 10) (by omega) (c / 10 % 10) (by omega) h3
  have e4 := digit_inj (a % 10) (by omega) (c % 10) (by omega) h4
  omega

theorem isoSanChars_inj (t1 t2 : Timestamp) (hb1 : tsBounds t1) (hb2 : tsBounds t2)
    (h : isoSanChars t1 = isoSanChars t2) : t1 = t2 := by
  obtain ⟨hy1, hmo1, hd1, hh1, hmi1, hs1, hms1⟩ := hb1
  obtain ⟨hy2, hmo2, hd2, hh2, hmi2, hs2, hms2⟩ := hb2
  unfold isoSanChars at h
  simp only [List.cons_append, List.append_assoc] at h
  obtain ⟨ey, h⟩ := List.append_inj h rfl
  rw [List.cons.injEq] at h
  obtain ⟨emo, h⟩ := List.append_inj h.2 rfl
  rw [List.cons.injEq] at h
  obtain ⟨ed, h⟩ := List.append_inj h.2 rfl
  rw [List.cons.injEq] at h
  obtain ⟨eh, h⟩ := List.append_inj h.2 rfl
  rw [List.cons.injEq] at h
  obtain ⟨emi, h⟩ := List.append_inj h.2 rfl
  rw [List.cons.injEq] at h
  obtain ⟨es, h⟩ := List.append_inj h.2 rfl
  rw [List.cons.injEq] at h
  obtain ⟨ems, _⟩ := List.append_inj h.2 rfl
  have hy := pad4_inj _ _ hy1 hy2 ey
  have hmo := pad2_inj _ _ hmo1 hmo2 emo
  have hdy := pad2_inj _ _ hd1 hd2 ed
  have hhr := pad2_inj _ _ hh1 hh2 eh
  have hmi := pad2_inj _ _ hmi1 hmi2 emi
  have hsc := pad2_inj _ _ hs1 hs2 es
  have hms := pad3_inj _ _ hms1 hms2 ems
  cases t1
  cases t2
  simp_all

/-- C8: the naming policy strips a trailing `.txt` from the base file name,
appends a hyphen plus the ISO-8601 instant with every colon and period
replaced by a hyphen, and re-appends `.txt`; and two calls at instants whose
ISO representations differ produce distinct names. -/
theorem generateNewBlobName_spec (base : String) (t1 t2 : Timestamp)
    (hb1 : tsBounds t1) (hb2 : tsBounds t2) (hne : isoChars t1 ≠ isoChars t2) :
    (generateNewBlobName base t1
      = stripTxt base ++ "-" ++ String.mk (isoSanChars t1) ++ ".txt") ∧
    generateNewBlobName base t1 ≠ generateNewBlobName base t2 := by
  constructor
  · unfold generateNewBlobName
    rw [sanitize_isoChars]
  · intro heq
    have hd : (generateNewBlobName base t1).data = (generateNewBlobName base t2).data := by
      rw [heq]
    have e1 : ("-" : String).data = ['-'] := rfl
    have e2 : (".txt" : String).data = ['.', 't', 'x', 't'] := rfl
    unfold generateNewBlobName at hd
    simp only [String.data_append, e1, e2, List.append_assoc, List.singleton_append,
      List.cons_append, List.nil_append] at hd
    have hd2 := List.append_cancel_left hd
    rw [List.cons.injEq] at hd2
    have hlen : (sanitizeChars (isoChars t1)).length = (sanitizeChars (isoChars t2)).length := by
      simp [sanitizeChars, isoChars, pad4, pad3, pad2]
    obtain ⟨hsan, _⟩ := List.append_inj hd2.2 hlen
    rw [sanitize_isoChars, sanitize_isoChars] at hsan
    exact hne (congrArg isoChars (isoSanChars_inj t1 t2 hb1 hb2 hsan))

/-- C8 witness: the spec's example at the concrete instant `cNow`: the name is
`logs/app-2026-10-11T12-34-56-789Z.txt` and differs from the name generated
at the distinguishable instant `cNow0`. -/
theorem generateNewBlobName_spec_witness :
    (generateNewBlobName ("logs/app.txt") cNow
      = stripTxt ("logs/app.txt") ++ "-" ++ String.mk (isoSanChars cNow) ++ ".txt") ∧
    generateNewBlobName ("logs/app.txt") cNow ≠ generateNewBlobName ("logs/app.txt") cNow0 ∧
    generateNewBlobName ("logs/app.txt") cNow = "logs/app-2026-10-11T12-34-56-789Z.txt" := by
  obtain ⟨h1, h2⟩ :=
    generateNewBlobName_spec ("logs/app.txt") cNow cNow0
      (by unfold tsBounds; decide) (by unfold tsBounds; decide) (by decide)
  exact ⟨h1, h2, by rfl⟩
